import Mathlib

/-!
Verification of the RAIChU repository's cluster-bridge module and its
experimental CLI scripts against the natural-language specification.

The Python data model (modules, domains, clusters) is shallowly embedded as
Lean structures; the operations of `raichu/retromol.py`,
`experimental_scripts/draw_genbank.py`, `experimental_scripts/index_a_domains.py`
and `experimental_scripts/predict_a_domains.py` are translated into executable
Lean functions.  Floating-point prediction scores are modelled as rationals;
file I/O is modelled by passing file contents (lists of lines) and parsed
cluster models explicitly.
-/

/-! ## Data model (spec section 3, raichu module/domain attribute shapes) -/

/-- Tailoring-domain types referenced by the scripts (`TailoringDomainType`). -/
inductive TailoringDomainType
  | KR | DH | ER | E
deriving DecidableEq, Inhabited

/-- Synthesis-domain types referenced by the scripts (`SynthesisDomainType`). -/
inductive SynthesisDomainType
  | KS
deriving DecidableEq, Inhabited

/-- Recognition-domain types referenced by the scripts (`RecognitionDomainType`). -/
inductive RecognitionDomainType
  | A | AT
deriving DecidableEq, Inhabited

/-- A domain's type, drawn from one of the three closed enumerations. -/
inductive DomainType
  | tailoring (t : TailoringDomainType)
  | synthesis (s : SynthesisDomainType)
  | recognition (r : RecognitionDomainType)
deriving DecidableEq, Inhabited

/-- One catalytic/carrier unit inside a module.  `substrate` holds the
substrate enum member's `.name` string (the scripts only ever compare that
string); `translation` is the amino-acid sequence of the domain. -/
structure Domain where
  type : DomainType
  active : Bool
  used : Bool
  substrate : String
  translation : String
deriving DecidableEq, Inhabited

/-- BioModule type enum (`raichu.module.ModuleType`). -/
inductive ModuleType
  | PKS | NRPS
deriving DecidableEq, Inhabited

/-- One assembly-line step, with the attributes read by the scripts. -/
structure BioModule where
  id : String
  type : ModuleType
  is_starter_module : Bool
  is_termination_module : Bool
  is_broken : Bool
  domains : List Domain
deriving DecidableEq, Inhabited

/-- In-memory cluster model: an ordered sequence of modules. -/
structure ModularCluster where
  modules : List BioModule
deriving DecidableEq, Inhabited

/-! ## raichu/retromol.py -/

/-- The functional-module scan of `read_cluster_files` (lines 61-64):
`has_functional_modules` starts `False` and is set `True` for every
non-broken module encountered. -/
def has_functional_modules (cluster : ModularCluster) : Bool :=
  cluster.modules.foldl (fun acc m => if !m.is_broken then true else acc) false

/-- `read_cluster_files`, modelled from the point where the external engine
has parsed the two cluster files and built the cluster
(`ClusterRepresentation.from_cluster_files` + `build_cluster` are external
boundary calls): returns `none` when no functional module is present,
otherwise the built cluster itself. -/
def read_cluster_files (cluster : ModularCluster) : Option ModularCluster :=
  if !(has_functional_modules cluster) then none else some cluster

/-- `is_start_only` of an iteration of `get_biosynthetic_modules`. -/
def isStartOnly (m : BioModule) : Bool :=
  m.is_starter_module && !m.is_termination_module

/-- `is_term_only` of an iteration of `get_biosynthetic_modules`. -/
def isTermOnly (m : BioModule) : Bool :=
  m.is_termination_module && !m.is_starter_module

/-- `is_flagged` of an iteration of `get_biosynthetic_modules`. -/
def isFlagged (m : BioModule) : Bool :=
  m.is_starter_module || m.is_termination_module

/-- A module that is neither starter nor terminator. -/
def neutralM (m : BioModule) : Bool :=
  !m.is_starter_module && !m.is_termination_module

/-- The scan loop of `get_biosynthetic_modules` (lines 87-110): `best` holds
the inclusive indices of the best window recorded so far, `cur` the start
index of the currently open window, `i` the index of the next module. -/
def gbmLoop (best : Option (Nat × Nat)) (cur : Option Nat) (i : Nat) :
    List BioModule → Option (Nat × Nat)
  | [] => best
  | m :: rest =>
    match cur with
    | none =>
      if isStartOnly m then gbmLoop best (some i) (i + 1) rest
      else gbmLoop best none (i + 1) rest
    | some cs =>
      if isTermOnly m then
        let best' :=
          match best with
          | none => some (cs, i)
          | some (bs, be) => if be - bs < i - cs then some (cs, i) else some (bs, be)
        gbmLoop best' none (i + 1) rest
      else if isFlagged m then
        gbmLoop best (if isStartOnly m then some i else none) (i + 1) rest
      else
        gbmLoop best (some cs) (i + 1) rest

/-- The result indices of the scan over a module list. -/
def gbmIndices (modules : List BioModule) : Option (Nat × Nat) :=
  gbmLoop none none 0 modules

/-- `get_biosynthetic_modules`: runs the scan and returns the slice
`modules[best_start : best_end + 1]`, or `None` when no window was recorded. -/
def get_biosynthetic_modules (cluster : ModularCluster) : Option (List BioModule) :=
  match gbmIndices cluster.modules with
  | none => none
  | some (s, t) => some ((cluster.modules.drop s).take (t + 1 - s))

/-- Specification predicate (spec section 4.1): indices `s < t` bound a valid
biosynthetic window when the first module is starter-only, the last module is
terminator-only, and every strictly interior module is neutral. -/
def ValidWindow (ms : List BioModule) (s t : Nat) : Prop :=
  s < t ∧ t < ms.length ∧
    isStartOnly (ms.getD s default) = true ∧
    isTermOnly (ms.getD t default) = true ∧
    ∀ j, j < t → s < j → neutralM (ms.getD j default) = true

instance (ms : List BioModule) (s t : Nat) : Decidable (ValidWindow ms s t) := by
  unfold ValidWindow; infer_instance

/-- Invariant on the recorded best window after scanning modules `0..i-1`:
when absent there is no valid window ending before `i`; when present it is a
valid window ending before `i` that is at least as long as, and starts no
later than any equally long, valid window ending before `i`. -/
def BestInv (ms : List BioModule) (i : Nat) : Option (Nat × Nat) → Prop
  | none => ∀ s t, t < i → ¬ ValidWindow ms s t
  | some (bs, be) =>
      ValidWindow ms bs be ∧ be < i ∧
      (∀ s t, t < i → ValidWindow ms s t → t - s ≤ be - bs) ∧
      (∀ s t, t < i → ValidWindow ms s t → t - s = be - bs → bs ≤ s)

/-- Invariant on the open window after scanning modules `0..i-1`: when no
window is open, no valid window crosses position `i`; when a window is open at
`cs`, module `cs` is starter-only, everything strictly after it up to `i` is
neutral, and any valid window crossing `i` starts exactly at `cs`. -/
def CurInv (ms : List BioModule) (i : Nat) : Option Nat → Prop
  | none => ∀ s t, s < i → i ≤ t → ¬ ValidWindow ms s t
  | some cs =>
      cs < i ∧ isStartOnly (ms.getD cs default) = true ∧
      (∀ j, j < i → cs < j → neutralM (ms.getD j default) = true) ∧
      (∀ s t, s < i → i ≤ t → ValidWindow ms s t → s = cs)

/-! ## Concrete inputs used by the witnesses and examples -/

/-- A module with the given starter/terminator flags and no domains. -/
def mkFlagModule (st te : Bool) : BioModule :=
  { id := "", type := ModuleType.PKS, is_starter_module := st,
    is_termination_module := te, is_broken := false, domains := [] }

/-- The spec's tie-break example: flags
[starter, neutral, neutral, terminator, starter, terminator]. -/
def clusterC2 : ModularCluster :=
  ⟨[mkFlagModule true false, mkFlagModule false false, mkFlagModule false false,
    mkFlagModule false true, mkFlagModule true false, mkFlagModule false true]⟩

/-- The spec's absence example: flags [starter, starter, neutral]. -/
def clusterC3 : ModularCluster :=
  ⟨[mkFlagModule true false, mkFlagModule true false, mkFlagModule false false]⟩

/-- Two neutral modules: no valid window exists. -/
def clusterC3b : ModularCluster :=
  ⟨[mkFlagModule false false, mkFlagModule false false]⟩

/-- A single module that is simultaneously starter and terminator. -/
def clusterC10single : ModularCluster :=
  ⟨[mkFlagModule true true]⟩

/-- A broken module. -/
def brokenModule : BioModule :=
  { id := "", type := ModuleType.NRPS, is_starter_module := false,
    is_termination_module := false, is_broken := true, domains := [] }

/-- A cluster whose every module is broken. -/
def clusterAllBroken : ModularCluster := ⟨[brokenModule, brokenModule]⟩

/-! ## experimental_scripts/draw_genbank.py: primary-sequence readout -/

deriving instance DecidableEq for Except

/-- `TD.KR` as a domain type. -/
def tdKR : DomainType := DomainType.tailoring TailoringDomainType.KR

/-- `TD.DH` as a domain type. -/
def tdDH : DomainType := DomainType.tailoring TailoringDomainType.DH

/-- `TD.ER` as a domain type. -/
def tdER : DomainType := DomainType.tailoring TailoringDomainType.ER

/-- `TD.E` as a domain type. -/
def tdE : DomainType := DomainType.tailoring TailoringDomainType.E

/-- `SD.KS` as a domain type. -/
def sdKS : DomainType := DomainType.synthesis SynthesisDomainType.KS

/-- `RD.A` as a domain type. -/
def rdA : DomainType := DomainType.recognition RecognitionDomainType.A

/-- `RD.AT` as a domain type. -/
def rdAT : DomainType := DomainType.recognition RecognitionDomainType.AT

/-- Line 46 of draw_genbank.py: the types of the module's active+used
KR/DH/ER tailoring domains, in module order. -/
def tailoring_domains (m : BioModule) : List DomainType :=
  (m.domains.filter fun d => [tdKR, tdDH, tdER].contains d.type && d.active && d.used).map
    fun d => d.type

/-- Lines 47-66: the letter code obtained by comparing the collected
tailoring-domain types, as a set, against the four expected patterns in
order A, B, C, D, defaulting to "A". -/
def motif_name (tds : List DomainType) : String :=
  if tds.toFinset = (∅ : Finset DomainType) then "A"
  else if tds.toFinset = {tdKR} then "B"
  else if tds.toFinset = {tdKR, tdDH} then "C"
  else if tds.toFinset = {tdKR, tdDH, tdER} then "D"
  else "A"

/-- Failure modes of the readout loop: reading the not-yet-assigned
`unit_name` local (Python `NameError`), and the NRPS single-A-domain
assertion. -/
inductive ReadoutError
  | nameError
  | assertionError
deriving DecidableEq, Inhabited

/-- One iteration of the primary-sequence readout loop of
draw_genbank.py `main` (lines 42-118).  The state carries the Python local
`unit_name` (absent until first assigned; the WILDCARD branch is `pass`, so
it reads the variable back without assigning it — `NameError` when it is
still unbound) and the accumulated `primary_sequence` list. -/
def readoutStep (st : Option String × List String) (m : BioModule) :
    Except ReadoutError (Option String × List String) :=
  if m.type == ModuleType.PKS &&
      !(m.domains.filter fun d => d.active && d.used).isEmpty then
    let tds := tailoring_domains m
    if !((m.domains.filter fun d => d.active && d.used).any fun d => d.type == sdKS) then
      Except.ok (st.1, st.2 ++ ["other"])
    else
      let motif := motif_name tds
      let at_domains := m.domains.filter fun d => d.type == rdAT
      if at_domains.length != 1 then
        Except.ok (st.1, st.2 ++ [motif])
      else
        let substrate_name := (at_domains.headD default).substrate
        if substrate_name == "WILDCARD" then
          match st.1 with
          | none => Except.error ReadoutError.nameError
          | some u => Except.ok (some u, st.2 ++ [u])
        else
          let unit_name :=
            if substrate_name == "MALONYL_COA" then motif ++ "1"
            else if substrate_name == "METHYLMALONYL_COA" then motif ++ "2"
            else if substrate_name == "METHOXYMALONYL_COA" then motif ++ "6"
            else if substrate_name == "ETHYLMALONYL_COA" then motif ++ "4"
            else motif
          Except.ok (some unit_name, st.2 ++ [unit_name])
  else if m.type == ModuleType.NRPS then
    let domain_types := (m.domains.filter fun d => d.active && d.used).map fun d => d.type
    if domain_types.contains rdA then
      let a_domains := m.domains.filter fun d => d.type == rdA && d.active && d.used
      if a_domains.length == 1 then
        Except.ok (st.1, st.2 ++ ["amino_acid"])
      else
        Except.error ReadoutError.assertionError
    else
      Except.ok st
  else
    Except.ok st

/-- The primary-sequence readout over a module list (lines 40-119). -/
def primary_sequence (modules : List BioModule) :
    Except ReadoutError (List String) := do
  let st ← modules.foldlM readoutStep (none, [])
  pure st.2

/-- The claim's wording of the classification input: the set of active+used
tailoring domains restricted to KR/DH/ER. -/
def specTailoringSet (m : BioModule) : Finset DomainType :=
  ((m.domains.filter fun d => d.active && d.used).map fun d => d.type).toFinset ∩
    {tdKR, tdDH, tdER}

/-- The claim's letter-code table over a tailoring-domain set. -/
def letterOfSet (S : Finset DomainType) : String :=
  if S = ∅ then "A"
  else if S = {tdKR} then "B"
  else if S = {tdKR, tdDH} then "C"
  else if S = {tdKR, tdDH, tdER} then "D"
  else "A"

/-- A domain with the given type, activity flags and substrate name. -/
def mkDomain (t : DomainType) (a u : Bool) (sub : String) : Domain :=
  { type := t, active := a, used := u, substrate := sub, translation := "" }

/-- PKS module with active+used KS, KR, DH domains and one
METHYLMALONYL_COA AT domain: the claim's "C2" example. -/
def moduleC5 : BioModule :=
  { id := "m1", type := ModuleType.PKS, is_starter_module := false,
    is_termination_module := false, is_broken := false,
    domains := [mkDomain sdKS true true "", mkDomain tdKR true true "",
      mkDomain tdDH true true "", mkDomain rdAT true true "METHYLMALONYL_COA"] }

/-- PKS module with an active+used KS domain and exactly one AT domain whose
substrate is WILDCARD. -/
def moduleWildcard : BioModule :=
  { id := "m2", type := ModuleType.PKS, is_starter_module := false,
    is_termination_module := false, is_broken := false,
    domains := [mkDomain sdKS true true "", mkDomain rdAT true true "WILDCARD"] }

/-! ## experimental_scripts/index_a_domains.py -/

/-- The `isinstance(domain, RecognitionDomain) and isinstance(domain.type,
RecognitionDomainType)` check of line 113: the domain's type belongs to the
recognition enumeration. -/
def isRecognitionType : DomainType → Bool
  | DomainType.recognition _ => true
  | _ => false

/-- String rendering of a domain type's enum member, as interpolated into the
FASTA header. -/
def domainTypeStr : DomainType → String
  | DomainType.tailoring TailoringDomainType.KR => "KR"
  | DomainType.tailoring TailoringDomainType.DH => "DH"
  | DomainType.tailoring TailoringDomainType.ER => "ER"
  | DomainType.tailoring TailoringDomainType.E => "E"
  | DomainType.synthesis SynthesisDomainType.KS => "KS"
  | DomainType.recognition RecognitionDomainType.A => "A"
  | DomainType.recognition RecognitionDomainType.AT => "AT"

/-- The two FASTA lines written for one domain (lines 114-118): header
`>{stem}|{module-id}|{domain-type}` then the domain's translation. -/
def recordLines (stem : String) (m : BioModule) (d : Domain) : List String :=
  [">" ++ stem ++ "|" ++ m.id ++ "|" ++ domainTypeStr d.type, d.translation]

/-- The FASTA lines appended for one successfully read cluster by the
indexer's module/domain loop (lines 110-118): for every NRPS module, for
every recognition domain on it, its two record lines, in order. -/
def indexRecords (stem : String) (cluster : ModularCluster) : List String :=
  cluster.modules.foldl
    (fun acc m =>
      if m.type == ModuleType.NRPS then
        m.domains.foldl
          (fun acc2 d =>
            if isRecognitionType d.type then acc2 ++ recordLines stem m d else acc2)
          acc
      else acc)
    []

/-- Declarative form of the emitted lines: the per-module, per-recognition-
domain records flattened in order. -/
def indexRecordsFlat (stem : String) (cluster : ModularCluster) : List String :=
  cluster.modules.flatMap fun m =>
    if m.type == ModuleType.NRPS then
      m.domains.flatMap fun d =>
        if isRecognitionType d.type then recordLines stem m d else []
    else []

/-- The claim's wording of the indexer output: records only for recognition
domains of the adenylation kind. -/
def indexRecordsAdenylationOnly (stem : String) (cluster : ModularCluster) :
    List String :=
  cluster.modules.flatMap fun m =>
    if m.type == ModuleType.NRPS then
      m.domains.flatMap fun d =>
        if d.type == rdA then recordLines stem m d else []
    else []

/-- Number of recognition domains across the NRPS modules of a cluster. -/
def recognitionDomainCount (cluster : ModularCluster) : Nat :=
  (cluster.modules.map fun m =>
    if m.type == ModuleType.NRPS then
      (m.domains.filter fun d => isRecognitionType d.type).length
    else 0).sum

/-- A log line of the indexer. -/
inductive LogMsg
  | warning (msg : String)
  | error (msg : String)
  | info (msg : String)
deriving DecidableEq, Inhabited

/-- Indexer run state: the accumulated FASTA lines, the three counters of the
script, and the log. -/
structure IndexState where
  fasta : List String
  succeeded : Nat
  failed : Nat
  processed : Nat
  log : List LogMsg
deriving DecidableEq, Inhabited

/-- The state at the start of a run. -/
def initIndexState : IndexState :=
  { fasta := [], succeeded := 0, failed := 0, processed := 0, log := [] }

/-- Per-file processing of index_a_domains.py `main` (lines 105-128), as a
function of the file's read result.  The script executes
`cluster, cluster_info = read_cluster_files(filepath)`: when the read returns
the absent sentinel, tuple-unpacking `None` raises `TypeError`, which the
generic `except Exception` handler catches, logging an error and counting the
file as failed.  On a successful read the NRPS recognition-domain records are
appended and the file is counted as succeeded. -/
def processFile (st : IndexState) (stem : String)
    (readResult : Option ModularCluster) : IndexState :=
  match readResult with
  | none =>
      { st with
        failed := st.failed + 1,
        log := st.log ++ [LogMsg.error ("Error processing " ++ stem)] }
  | some cluster =>
      { st with
        fasta := st.fasta ++ indexRecords stem cluster,
        succeeded := st.succeeded + 1, processed := st.processed + 1 }

/-- An active+used domain with the given type and translation. -/
def mkDomainT (t : DomainType) (tr : String) : Domain :=
  { type := t, active := true, used := true, substrate := "", translation := tr }

/-- NRPS module holding one acyltransferase recognition domain. -/
def moduleATonly : BioModule :=
  { id := "m1", type := ModuleType.NRPS, is_starter_module := false,
    is_termination_module := false, is_broken := false,
    domains := [mkDomainT rdAT "SEQX"] }

/-- A cluster made of the single AT-recognition-domain NRPS module. -/
def clusterATonly : ModularCluster := ⟨[moduleATonly]⟩

/-! ## experimental_scripts/predict_a_domains.py -/

/-- One prediction result from the external predictor: the source domain's
protein name (`pred._domain.protein_name`) and its label/score pairs
(`zip(pred._prediction_labels, pred._predictions)`).  The numpy float scores
are modelled as rationals. -/
structure Prediction where
  domain_name : String
  preds : List (String × ℚ)
deriving DecidableEq, Inhabited

/-- The label sort of line 140 (`domain_preds.sort(key=lambda x: x[0])`);
Python's stable sort is modelled by the structural stable insertion sort. -/
def sortByLabel (ps : List (String × ℚ)) : List (String × ℚ) :=
  ps.insertionSort fun a b => a.1 ≤ b.1

/-- The decimal digit character of `n % 10`. -/
def digitChar (n : Nat) : Char := Char.ofNat (48 + n % 10)

/-- Three-digit zero-padded decimal rendering of `n % 1000`. -/
def pad3 (n : Nat) : String :=
  String.mk [digitChar (n / 100), digitChar (n / 10), digitChar n]

/-- Floor of `q + 1/2`, computed structurally on the rational's fraction. -/
def roundRat (q : ℚ) : Int := Int.fdiv (2 * q.num + q.den) (2 * q.den)

/-- The `f"{x[1]:.3f}"` formatting of line 147, on scores modelled as
rationals: scale by 1000, round to the nearest integer, and print the integer
part, a point, and exactly three fractional digits. -/
def format3 (q : ℚ) : String :=
  let m : Int := roundRat (q * 1000)
  let a : Nat := m.natAbs
  (if m < 0 then "-" else "") ++ toString (a / 1000) ++ "." ++ pad3 (a % 1000)

/-- A string made of some prefix, a decimal point, and exactly three digits. -/
def threeDecimalShape (s : String) : Prop :=
  ∃ a b, s = a ++ "." ++ b ∧ b.length = 3 ∧ b.toList.all Char.isDigit = true

/-- The sorted label list extracted from label/score pairs. -/
def headerLabels (ps : List (String × ℚ)) : List String :=
  (sortByLabel ps).map fun x => x.1

/-- The header row of lines 142-144: `domain_id` followed by the sorted
labels, tab-separated. -/
def headerLine (p : Prediction) : String :=
  String.intercalate "\t" ("domain_id" :: headerLabels p.preds)

/-- The formatted probability cells of one row (line 147). -/
def rowCells (p : Prediction) : List String :=
  (sortByLabel p.preds).map fun x => format3 x.2

/-- One output row (line 148): the domain name then the tab-joined cells. -/
def rowLine (p : Prediction) : String :=
  p.domain_name ++ "\t" ++ String.intercalate "\t" (rowCells p)

/-- Per-prediction writing step (lines 137-148); the Bool is the
`header_written` flag, set when the header row is emitted from the first
result. -/
def writeStep (st : Bool × List String) (p : Prediction) : Bool × List String :=
  let lines := if !st.1 then st.2 ++ [headerLine p] else st.2
  (true, lines ++ [rowLine p])

/-- The prediction-table writing loop over the per-batch prediction results
(lines 133-148). -/
def writePredictionLines (batches : List (List Prediction)) : List String :=
  (batches.foldl (fun st batch => batch.foldl writeStep st) (false, [])).2

/-- Python `str.strip()`: remove leading and trailing whitespace. -/
def pyStrip (s : String) : String :=
  String.mk (((s.data.dropWhile Char.isWhitespace).reverse.dropWhile
    Char.isWhitespace).reverse)

/-- Python `line.startswith(">")`: the first character is `>`. -/
def pyStartsWithGt (s : String) : Bool :=
  match s.data with
  | [] => false
  | c :: _ => c == '>'

/-- State of the `fasta_batches` generator (lines 55-84): the batches yielded
so far, the batch being accumulated (two entries per record), the pending
header and the pending sequence parts. -/
structure FBState where
  out : List (List String)
  batch : List String
  header : Option String
  seqParts : List String
deriving DecidableEq, Inhabited

/-- One line of the `fasta_batches` loop body (lines 61-76): blank lines are
skipped; a header line flushes the previous record into the batch, yielding
the batch when it reaches `batch_size` records; other lines extend the
pending sequence. -/
def fbStep (batch_size : Nat) (st : FBState) (rawLine : String) : FBState :=
  let line := pyStrip rawLine
  if line = "" then st
  else if pyStartsWithGt line then
    match st.header with
    | some h =>
      let seq := String.join st.seqParts
      let batch' := st.batch ++ [h, seq]
      if batch_size * 2 ≤ batch'.length then
        { out := st.out ++ [batch'], batch := [], header := some line, seqParts := [] }
      else
        { out := st.out, batch := batch', header := some line, seqParts := [] }
    | none => { st with header := some line, seqParts := [] }
  else
    { st with seqParts := st.seqParts ++ [line] }

/-- `fasta_batches` (lines 55-84) over the file's lines: fold the per-line
step, flush the last record after the loop, and yield the remaining batch if
it is nonempty. -/
def fasta_batches (batch_size : Nat) (lines : List String) : List (List String) :=
  let st := lines.foldl (fbStep batch_size) ⟨[], [], none, []⟩
  let finalBatch :=
    match st.header with
    | some h => st.batch ++ [h, String.join st.seqParts]
    | none => st.batch
  if finalBatch ≠ [] then st.out ++ [finalBatch] else st.out

/-- Reference parsing state: the records recognised so far plus the pending
header and sequence parts. -/
structure RecState where
  recs : List (String × String)
  header : Option String
  seqParts : List String
deriving DecidableEq, Inhabited

/-- Reference per-line step for the claim's record definition: a record is
one header line plus its concatenated sequence lines until the next header
or end of file, under the same blank-line/strip discipline as the reader. -/
def recStep (st : RecState) (rawLine : String) : RecState :=
  let line := pyStrip rawLine
  if line = "" then st
  else if pyStartsWithGt line then
    match st.header with
    | some h =>
      { recs := st.recs ++ [(h, String.join st.seqParts)], header := some line,
        seqParts := [] }
    | none => { st with header := some line, seqParts := [] }
  else
    { st with seqParts := st.seqParts ++ [line] }

/-- All records of the file, in file order. -/
def fastaRecords (lines : List String) : List (String × String) :=
  let st := lines.foldl recStep ⟨[], none, []⟩
  match st.header with
  | some h => st.recs ++ [(h, String.join st.seqParts)]
  | none => st.recs

/-- The two FASTA lines of a record. -/
def pairFlat (r : String × String) : List String := [r.1, r.2]

/-! # Theorems -/

/-! ## Boolean flag lemmas -/

theorem flagged_of_startOnly {m : BioModule} (h : isStartOnly m = true) :
    isFlagged m = true := by
  simp only [isStartOnly, Bool.and_eq_true] at h
  simp [isFlagged, h.1]

theorem flagged_of_termOnly {m : BioModule} (h : isTermOnly m = true) :
    isFlagged m = true := by
  simp only [isTermOnly, Bool.and_eq_true] at h
  simp [isFlagged, h.1]

theorem not_neutral_of_flagged {m : BioModule} (h : isFlagged m = true) :
    ¬ neutralM m = true := by
  simp only [isFlagged, Bool.or_eq_true] at h
  simp only [neutralM, Bool.and_eq_true, Bool.not_eq_true']
  rintro ⟨h1, h2⟩
  rcases h with h | h <;> simp_all

theorem not_startOnly_of_termOnly {m : BioModule} (h : isTermOnly m = true) :
    isStartOnly m = false := by
  simp only [isTermOnly, Bool.and_eq_true, Bool.not_eq_true'] at h
  simp [isStartOnly, h.2]

theorem not_termOnly_of_startOnly {m : BioModule} (h : isStartOnly m = true) :
    isTermOnly m = false := by
  simp only [isStartOnly, Bool.and_eq_true, Bool.not_eq_true'] at h
  simp [isTermOnly, h.2]

theorem not_neutral_of_startOnly {m : BioModule} (h : isStartOnly m = true) :
    ¬ neutralM m = true :=
  not_neutral_of_flagged (flagged_of_startOnly h)

theorem not_neutral_of_termOnly {m : BioModule} (h : isTermOnly m = true) :
    ¬ neutralM m = true :=
  not_neutral_of_flagged (flagged_of_termOnly h)

theorem neutral_of_not_flagged {m : BioModule} (h : isFlagged m = false) :
    neutralM m = true := by
  simp only [isFlagged, Bool.or_eq_false_iff] at h
  simp [neutralM, h.1, h.2]

theorem not_startOnly_of_neutral {m : BioModule} (h : neutralM m = true) :
    isStartOnly m = false := by
  simp only [neutralM, Bool.and_eq_true, Bool.not_eq_true'] at h
  simp [isStartOnly, h.1]

theorem not_termOnly_of_neutral {m : BioModule} (h : neutralM m = true) :
    isTermOnly m = false := by
  simp only [neutralM, Bool.and_eq_true, Bool.not_eq_true'] at h
  simp [isTermOnly, h.2]

/-! ## Window-scan invariant proof for get_biosynthetic_modules -/

theorem drop_cons_facts {ms rest : List BioModule} {m : BioModule} {i : Nat}
    (h : ms.drop i = m :: rest) :
    i < ms.length ∧ ms.getD i default = m ∧ ms.drop (i + 1) = rest := by
  have hi : i < ms.length := by
    by_contra hle
    push_neg at hle
    rw [List.drop_eq_nil_of_le hle] at h
    cases h
  refine ⟨hi, ?_, ?_⟩
  · have h0 : (ms.drop i)[0]? = some m := by rw [h]; simp
    rw [List.getElem?_drop, Nat.add_zero] at h0
    rw [List.getD_eq_getElem?_getD, h0]
    rfl
  · have h2 : ms.drop (i + 1) = (ms.drop i).drop 1 := (List.drop_drop 1 i ms).symm
    rw [h2, h]
    rfl

/-- If no valid window ends exactly at `i`, the recorded best is unchanged by
scanning module `i`. -/
theorem bestInv_succ {ms : List BioModule} {i : Nat} {best : Option (Nat × Nat)}
    (hB : BestInv ms i best) (hnew : ∀ s, ¬ ValidWindow ms s i) :
    BestInv ms (i + 1) best := by
  rcases best with _ | ⟨bs, be⟩
  · intro s t ht hv
    rcases Nat.lt_succ_iff_lt_or_eq.mp ht with ht' | ht'
    · exact hB s t ht' hv
    · subst ht'; exact hnew s hv
  · obtain ⟨hvbe, hbei, hlong, hleft⟩ := hB
    refine ⟨hvbe, by omega, ?_, ?_⟩
    · intro s t ht hv
      rcases Nat.lt_succ_iff_lt_or_eq.mp ht with ht' | ht'
      · exact hlong s t ht' hv
      · subst ht'; exact absurd hv (hnew s)
    · intro s t ht hv heq
      rcases Nat.lt_succ_iff_lt_or_eq.mp ht with ht' | ht'
      · exact hleft s t ht' hv heq
      · subst ht'; exact absurd hv (hnew s)

/-- Main loop invariant: starting from states satisfying the invariants at
position `i` with `rest` the modules not yet scanned, the loop ends in a state
satisfying the best-window invariant at the end of the list. -/
theorem gbmLoop_inv (ms : List BioModule) :
    ∀ (rest : List BioModule) (i : Nat) (best : Option (Nat × Nat)) (cur : Option Nat),
      ms.drop i = rest →
      BestInv ms i best → CurInv ms i cur →
      BestInv ms ms.length (gbmLoop best cur i rest) := by
  intro rest
  induction rest with
  | nil =>
    intro i best cur hdrop hB hC
    have hlen : ms.length ≤ i := by
      by_contra hlt
      push_neg at hlt
      have : ms.drop i ≠ [] := by
        simp [List.drop_eq_nil_iff]
        omega
      exact this hdrop
    rcases best with _ | ⟨bs, be⟩
    · intro s t ht hv
      exact hB s t (by omega) hv
    · obtain ⟨hvbe, hbei, hlong, hleft⟩ := hB
      exact ⟨hvbe, hvbe.2.1, fun s t ht hv => hlong s t (by omega) hv,
        fun s t ht hv heq => hleft s t (by omega) hv heq⟩
  | cons m rest ih =>
    intro i best cur hdrop hB hC
    obtain ⟨hi, hgm, hdrop'⟩ := drop_cons_facts hdrop
    rcases cur with _ | cs
    · -- no window open
      have hCnone : ∀ s t, s < i → i ≤ t → ¬ ValidWindow ms s t := hC
      have hnoEnd : ∀ s, ¬ ValidWindow ms s i := fun s hv => hCnone s i hv.1 le_rfl hv
      cases hso : isStartOnly m
      · -- stay closed
        simp only [gbmLoop, hso, Bool.false_eq_true, if_false]
        refine ih (i + 1) best none hdrop' (bestInv_succ hB hnoEnd) ?_
        intro s t hs ht hv
        rcases Nat.lt_succ_iff_lt_or_eq.mp hs with hs' | hs'
        · exact hCnone s t hs' (by omega) hv
        · subst hs'
          have hstart := hv.2.2.1
          rw [hgm, hso] at hstart
          cases hstart
      · -- open a window at i
        simp only [gbmLoop, hso, if_true]
        refine ih (i + 1) best (some i) hdrop' (bestInv_succ hB hnoEnd) ?_
        refine ⟨Nat.lt_succ_self i, by rw [hgm]; exact hso, ?_, ?_⟩
        · intro j hj hij
          omega
        · intro s t hs ht hv
          rcases Nat.lt_succ_iff_lt_or_eq.mp hs with hs' | hs'
          · exact absurd hv (hCnone s t hs' (by omega))
          · exact hs'
    · -- window open at cs
      obtain ⟨hcs, hcsStart, hneutral, hcross⟩ := hC
      cases hto : isTermOnly m
      · -- current module is not terminator-only
        have hnoEnd : ∀ s, ¬ ValidWindow ms s i := by
          intro s hv
          have hterm := hv.2.2.2.1
          rw [hgm, hto] at hterm
          cases hterm
        cases hfl : isFlagged m
        · -- neutral module: window stays open
          have hneu : neutralM m = true := neutral_of_not_flagged hfl
          simp only [gbmLoop, hto, hfl, Bool.false_eq_true, if_false]
          refine ih (i + 1) best (some cs) hdrop' (bestInv_succ hB hnoEnd) ?_
          refine ⟨by omega, hcsStart, ?_, ?_⟩
          · intro j hj hcj
            rcases Nat.lt_succ_iff_lt_or_eq.mp hj with hj' | hj'
            · exact hneutral j hj' hcj
            · subst hj'; rw [hgm]; exact hneu
          · intro s t hs ht hv
            rcases Nat.lt_succ_iff_lt_or_eq.mp hs with hs' | hs'
            · exact hcross s t hs' (by omega) hv
            · subst hs'
              have hstart := hv.2.2.1
              rw [hgm, not_startOnly_of_neutral hneu] at hstart
              cases hstart
        · -- flagged but not a clean close: abandon, maybe reopen
          have hnf : ¬ neutralM m = true := not_neutral_of_flagged hfl
          have hcross' : ∀ s t, s < i → i + 1 ≤ t → ¬ ValidWindow ms s t := by
            intro s t hs ht hv
            have hint : neutralM (ms.getD i default) = true :=
              hv.2.2.2.2 i (by omega) hs
            rw [hgm] at hint
            exact hnf hint
          cases hso : isStartOnly m
          · -- both flags set: close with no window open
            simp only [gbmLoop, hto, hfl, hso, Bool.false_eq_true, if_false, if_true]
            refine ih (i + 1) best none hdrop' (bestInv_succ hB hnoEnd) ?_
            intro s t hs ht hv
            rcases Nat.lt_succ_iff_lt_or_eq.mp hs with hs' | hs'
            · exact hcross' s t hs' ht hv
            · subst hs'
              have hstart := hv.2.2.1
              rw [hgm, hso] at hstart
              cases hstart
          · -- starter-only: reopen at i
            simp only [gbmLoop, hto, hfl, hso, Bool.false_eq_true, if_false, if_true]
            refine ih (i + 1) best (some i) hdrop' (bestInv_succ hB hnoEnd) ?_
            refine ⟨Nat.lt_succ_self i, by rw [hgm]; exact hso, ?_, ?_⟩
            · intro j hj hij
              omega
            · intro s t hs ht hv
              rcases Nat.lt_succ_iff_lt_or_eq.mp hs with hs' | hs'
              · exact absurd hv (hcross' s t hs' ht)
              · exact hs'
      · -- terminator-only: close the window at i
        have hvalid_ci : ValidWindow ms cs i :=
          ⟨hcs, hi, hcsStart, by rw [hgm]; exact hto, fun j hj hcj => hneutral j hj hcj⟩
        have hend : ∀ s, ValidWindow ms s i → s = cs :=
          fun s hv => hcross s i hv.1 le_rfl hv
        have hCnew : ∀ s t, s < i + 1 → i + 1 ≤ t → ¬ ValidWindow ms s t := by
          intro s t hs ht hv
          rcases Nat.lt_succ_iff_lt_or_eq.mp hs with hs' | hs'
          · have hint : neutralM (ms.getD i default) = true :=
              hv.2.2.2.2 i (by omega) hs'
            rw [hgm] at hint
            exact not_neutral_of_termOnly hto hint
          · subst hs'
            have hstart := hv.2.2.1
            rw [hgm] at hstart
            rw [not_startOnly_of_termOnly hto] at hstart
            cases hstart
        rcases best with _ | ⟨bs, be⟩
        · -- best was absent: record (cs, i)
          simp only [gbmLoop, hto, if_true]
          refine ih (i + 1) (some (cs, i)) none hdrop' ?_ hCnew
          refine ⟨hvalid_ci, Nat.lt_succ_self i, ?_, ?_⟩
          · intro s t ht hv
            rcases Nat.lt_succ_iff_lt_or_eq.mp ht with ht' | ht'
            · exact absurd hv (hB s t ht')
            · subst ht'; rw [hend s hv]
          · intro s t ht hv heq
            rcases Nat.lt_succ_iff_lt_or_eq.mp ht with ht' | ht'
            · exact absurd hv (hB s t ht')
            · subst ht'; rw [hend s hv]
        · -- best was (bs, be)
          obtain ⟨hvbe, hbei, hlong, hleft⟩ := hB
          have hbsbe : bs < be := hvbe.1
          have hbscs : bs < cs := by
            rcases Nat.lt_or_ge bs cs with hlt | hge
            · exact hlt
            · exfalso
              rcases Nat.eq_or_lt_of_le hge with heq | hlt
              · -- cs = bs: be would be a neutral interior module, yet terminator-only
                have hnb : neutralM (ms.getD be default) = true :=
                  hneutral be hbei (by omega)
                exact not_neutral_of_termOnly hvbe.2.2.2.1 hnb
              · -- cs < bs: bs would be a neutral interior module, yet starter-only
                have hnb : neutralM (ms.getD bs default) = true :=
                  hneutral bs (by omega) hlt
                exact not_neutral_of_startOnly hvbe.2.2.1 hnb
          by_cases hcmp : be - bs < i - cs
          · -- strictly longer: record (cs, i)
            simp only [gbmLoop, hto, if_true, if_pos hcmp]
            refine ih (i + 1) (some (cs, i)) none hdrop' ?_ hCnew
            refine ⟨hvalid_ci, Nat.lt_succ_self i, ?_, ?_⟩
            · intro s t ht hv
              rcases Nat.lt_succ_iff_lt_or_eq.mp ht with ht' | ht'
              · exact le_trans (hlong s t ht' hv) (le_of_lt hcmp)
              · subst ht'; rw [hend s hv]
            · intro s t ht hv heq
              rcases Nat.lt_succ_iff_lt_or_eq.mp ht with ht' | ht'
              · have := hlong s t ht' hv
                omega
              · subst ht'; rw [hend s hv]
          · -- not longer: keep (bs, be)
            simp only [gbmLoop, hto, if_true, if_neg hcmp]
            push_neg at hcmp
            refine ih (i + 1) (some (bs, be)) none hdrop' ?_ hCnew
            refine ⟨hvbe, by omega, ?_, ?_⟩
            · intro s t ht hv
              rcases Nat.lt_succ_iff_lt_or_eq.mp ht with ht' | ht'
              · exact hlong s t ht' hv
              · subst ht'
                rw [hend s hv]
                exact hcmp
            · intro s t ht hv heq
              rcases Nat.lt_succ_iff_lt_or_eq.mp ht with ht' | ht'
              · exact hleft s t ht' hv heq
              · subst ht'
                rw [hend s hv]
                exact le_of_lt hbscs

/-- The scan's result satisfies the best-window invariant over the whole list. -/
theorem gbmIndices_spec (ms : List BioModule) :
    BestInv ms ms.length (gbmIndices ms) := by
  refine gbmLoop_inv ms ms 0 none none (by simp) ?_ ?_
  · intro s t ht hv
    omega
  · intro s t hs ht hv
    omega

theorem not_both_of_startOnly {m : BioModule} (h : isStartOnly m = true) :
    ¬(m.is_starter_module = true ∧ m.is_termination_module = true) := by
  simp only [isStartOnly, Bool.and_eq_true, Bool.not_eq_true'] at h
  rintro ⟨h1, h2⟩
  simp [h.2] at h2

theorem not_both_of_termOnly {m : BioModule} (h : isTermOnly m = true) :
    ¬(m.is_starter_module = true ∧ m.is_termination_module = true) := by
  simp only [isTermOnly, Bool.and_eq_true, Bool.not_eq_true'] at h
  rintro ⟨h1, h2⟩
  simp [h.2] at h1

theorem not_both_of_neutral {m : BioModule} (h : neutralM m = true) :
    ¬(m.is_starter_module = true ∧ m.is_termination_module = true) := by
  simp only [neutralM, Bool.and_eq_true, Bool.not_eq_true'] at h
  rintro ⟨h1, h2⟩
  simp [h.1] at h1

/-- A returned slice comes from recorded best indices that bound a valid
window of maximal length, leftmost among maximal ones. -/
theorem get_biosynthetic_modules_some_spec (cluster : ModularCluster)
    (w : List BioModule) (h : get_biosynthetic_modules cluster = some w) :
    ∃ s t, ValidWindow cluster.modules s t ∧
      w = (cluster.modules.drop s).take (t + 1 - s) ∧
      (∀ s' t', ValidWindow cluster.modules s' t' → t' - s' ≤ t - s) ∧
      (∀ s' t', ValidWindow cluster.modules s' t' → t' - s' = t - s → s ≤ s') := by
  rcases hg : gbmIndices cluster.modules with _ | ⟨s, t⟩
  · simp only [get_biosynthetic_modules, hg] at h
    exact Option.noConfusion h
  · simp only [get_biosynthetic_modules, hg] at h
    have hspec := gbmIndices_spec cluster.modules
    rw [hg] at hspec
    obtain ⟨hv, _, hlong, hleft⟩ := hspec
    refine ⟨s, t, hv, (Option.some.inj h).symm, ?_, ?_⟩
    · intro s' t' hv'
      exact hlong s' t' hv'.2.1 hv'
    · intro s' t' hv' heq
      exact hleft s' t' hv'.2.1 hv' heq

theorem noValidWindow_of_bounded (ms : List BioModule)
    (h : ∀ t, t < ms.length → ∀ s, s < t → ¬ ValidWindow ms s t) :
    ∀ s t, ¬ ValidWindow ms s t :=
  fun s t hv => h t hv.2.1 s hv.1 hv

/-! ## C2: longest leftmost bracketed window -/

/-- C2: whenever `get_biosynthetic_modules` returns a window, that window is a
slice of the module list bounded by a starter-only module and a terminator-only
module with all-neutral interior, no valid window is longer, and among
equally long valid windows the returned one is leftmost; on the spec's example
flag list [starter, neutral, neutral, terminator, starter, terminator] the
returned window is exactly the slice of indices 0 through 3. -/
theorem c2_get_biosynthetic_modules_longest_leftmost :
    (∀ (cluster : ModularCluster) (w : List BioModule),
      get_biosynthetic_modules cluster = some w →
      ∃ s t, ValidWindow cluster.modules s t ∧
        w = (cluster.modules.drop s).take (t + 1 - s) ∧
        (∀ s' t', ValidWindow cluster.modules s' t' → t' - s' ≤ t - s) ∧
        (∀ s' t', ValidWindow cluster.modules s' t' → t' - s' = t - s → s ≤ s')) ∧
    get_biosynthetic_modules clusterC2 = some (clusterC2.modules.take 4) :=
  ⟨get_biosynthetic_modules_some_spec, by decide⟩

/-- Witness for C2: instantiating the theorem on the spec's example cluster. -/
theorem c2_get_biosynthetic_modules_longest_leftmost_witness :
    ∃ s t, ValidWindow clusterC2.modules s t ∧
      clusterC2.modules.take 4 = (clusterC2.modules.drop s).take (t + 1 - s) ∧
      (∀ s' t', ValidWindow clusterC2.modules s' t' → t' - s' ≤ t - s) ∧
      (∀ s' t', ValidWindow clusterC2.modules s' t' → t' - s' = t - s → s ≤ s') :=
  c2_get_biosynthetic_modules_longest_leftmost.1 clusterC2
    (clusterC2.modules.take 4)
    c2_get_biosynthetic_modules_longest_leftmost.2

/-! ## C3: absent result exactly when no valid window exists -/

/-- C3: `get_biosynthetic_modules` returns the absent result if and only if no
window of the module list satisfies the starter/terminator bracketing rule;
in particular the flag list [starter, starter, neutral] yields the absent
result. -/
theorem c3_get_biosynthetic_modules_absent_iff_no_window :
    (∀ cluster : ModularCluster,
      get_biosynthetic_modules cluster = none ↔
        ∀ s t, ¬ ValidWindow cluster.modules s t) ∧
    get_biosynthetic_modules clusterC3 = none := by
  constructor
  · intro cluster
    constructor
    · intro h s t hv
      rcases hg : gbmIndices cluster.modules with _ | ⟨bs, bt⟩
      · have hspec := gbmIndices_spec cluster.modules
        rw [hg] at hspec
        exact hspec s t hv.2.1 hv
      · simp only [get_biosynthetic_modules, hg] at h
        exact Option.noConfusion h
    · intro h
      rcases hg : gbmIndices cluster.modules with _ | ⟨bs, bt⟩
      · simp [get_biosynthetic_modules, hg]
      · have hspec := gbmIndices_spec cluster.modules
        rw [hg] at hspec
        exact absurd hspec.1 (h bs bt)
  · decide

/-- Witness for C3: a two-neutral-module cluster has no valid window, hence
the absent result. -/
theorem c3_get_biosynthetic_modules_absent_iff_no_window_witness :
    get_biosynthetic_modules clusterC3b = none :=
  (c3_get_biosynthetic_modules_absent_iff_no_window.1 clusterC3b).mpr
    (noValidWindow_of_bounded _ (by decide))

/-! ## C10: a returned window always holds at least two modules -/

/-- C10: a returned window has at least two modules and never contains a
module flagged both starter and terminator; a cluster with at most one module
always yields the absent result, even when its only module is simultaneously
starter and terminator. -/
theorem c10_returned_window_never_single :
    (∀ (cluster : ModularCluster) (w : List BioModule),
      get_biosynthetic_modules cluster = some w →
      2 ≤ w.length ∧
        ∀ m ∈ w, ¬(m.is_starter_module = true ∧ m.is_termination_module = true)) ∧
    (∀ cluster : ModularCluster, cluster.modules.length ≤ 1 →
      get_biosynthetic_modules cluster = none) := by
  constructor
  · intro cluster w h
    obtain ⟨s, t, hv, hw, hlong, hleft⟩ :=
      get_biosynthetic_modules_some_spec cluster w h
    subst hw
    have hst : s < t := hv.1
    have htlen : t < cluster.modules.length := hv.2.1
    have hwlen : ((cluster.modules.drop s).take (t + 1 - s)).length = t + 1 - s := by
      rw [List.length_take, List.length_drop]
      omega
    constructor
    · omega
    · intro m hm
      obtain ⟨k, hk, hkm⟩ := List.mem_iff_getElem.mp hm
      have hklen : k < t + 1 - s := by rw [hwlen] at hk; exact hk
      have hbound : s + k < cluster.modules.length := by omega
      have hkm' : cluster.modules.getD (s + k) default = m := by
        rw [List.getD_eq_getElem _ _ hbound]
        rw [List.getElem_take, List.getElem_drop] at hkm
        exact hkm
      by_cases hk0 : k = 0
      · subst hk0
        have hstart := hv.2.2.1
        rw [Nat.add_zero] at hkm'
        rw [hkm'] at hstart
        exact not_both_of_startOnly hstart
      · rcases Nat.eq_or_lt_of_le (by omega : s + k ≤ t) with hEq | hLt
        · have hterm := hv.2.2.2.1
          rw [← hEq, hkm'] at hterm
          exact not_both_of_termOnly hterm
        · have hneu := hv.2.2.2.2 (s + k) hLt (by omega)
          rw [hkm'] at hneu
          exact not_both_of_neutral hneu
  · intro cluster hlen
    rcases hres : get_biosynthetic_modules cluster with _ | w
    · rfl
    · exfalso
      obtain ⟨s, t, hv, _, _, _⟩ := get_biosynthetic_modules_some_spec cluster w hres
      have h1 := hv.1
      have h2 := hv.2.1
      omega

/-- Witness for C10: the example window of four modules, and a single
both-starter-and-terminator module yielding the absent result. -/
theorem c10_returned_window_never_single_witness :
    (2 ≤ (clusterC2.modules.take 4).length ∧
      ∀ m ∈ clusterC2.modules.take 4,
        ¬(m.is_starter_module = true ∧ m.is_termination_module = true)) ∧
    get_biosynthetic_modules clusterC10single = none :=
  ⟨c10_returned_window_never_single.1 clusterC2 (clusterC2.modules.take 4)
      (by decide),
    c10_returned_window_never_single.2 clusterC10single (by decide)⟩

/-! ## C1: read_cluster_files absent-result convention -/

theorem has_functional_foldl (l : List BioModule) (acc : Bool) :
    l.foldl (fun acc m => if !m.is_broken then true else acc) acc
      = (acc || l.any fun m => !m.is_broken) := by
  induction l generalizing acc with
  | nil => simp
  | cons m rest ih =>
    rw [List.foldl_cons, ih, List.any_cons]
    by_cases hb : m.is_broken = true
    · simp [hb]
    · simp only [Bool.not_eq_true] at hb
      simp [hb]

/-- C1: `read_cluster_files` returns the absent result exactly when every
module in the built cluster is broken, and returns the built cluster itself
as soon as one non-broken module is present. -/
theorem c1_read_cluster_files_absent_iff_all_broken (cluster : ModularCluster) :
    (read_cluster_files cluster = none ↔ ∀ m ∈ cluster.modules, m.is_broken = true) ∧
    (read_cluster_files cluster = some cluster ↔ ∃ m ∈ cluster.modules, m.is_broken = false) := by
  have hfold := has_functional_foldl cluster.modules false
  constructor
  · constructor
    · intro h m hm
      by_contra hb
      simp only [read_cluster_files, has_functional_modules, hfold] at h
      simp only [Bool.not_eq_true] at hb
      have : cluster.modules.any (fun m => !m.is_broken) = true :=
        List.any_eq_true.mpr ⟨m, hm, by simp [hb]⟩
      simp [this] at h
    · intro h
      simp only [read_cluster_files, has_functional_modules, hfold]
      have : cluster.modules.any (fun m => !m.is_broken) = false := by
        rw [Bool.eq_false_iff]
        intro hany
        obtain ⟨m, hm, hb⟩ := List.any_eq_true.mp hany
        simp [h m hm] at hb
      simp [this]
  · constructor
    · intro h
      simp only [read_cluster_files, has_functional_modules, hfold] at h
      by_cases hany : cluster.modules.any (fun m => !m.is_broken) = true
      · obtain ⟨m, hm, hb⟩ := List.any_eq_true.mp hany
        exact ⟨m, hm, by simpa using hb⟩
      · simp only [Bool.not_eq_true] at hany
        simp [hany] at h
    · intro ⟨m, hm, hb⟩
      simp only [read_cluster_files, has_functional_modules, hfold]
      have : cluster.modules.any (fun m => !m.is_broken) = true :=
        List.any_eq_true.mpr ⟨m, hm, by simp [hb]⟩
      simp [this]

/-- Witness for C1 at concrete inputs: the all-broken cluster maps to the
absent result, the starter/terminator example cluster is returned unchanged. -/
theorem c1_read_cluster_files_absent_iff_all_broken_witness :
    read_cluster_files clusterAllBroken = none ∧
    read_cluster_files clusterC2 = some clusterC2 :=
  ⟨(c1_read_cluster_files_absent_iff_all_broken clusterAllBroken).1.mpr (by decide),
   (c1_read_cluster_files_absent_iff_all_broken clusterC2).2.mpr (by decide)⟩

/-! ## C5: PKS letter-code classification -/

theorem tailoring_domains_toFinset (m : BioModule) :
    (tailoring_domains m).toFinset = specTailoringSet m := by
  ext x
  simp only [tailoring_domains, specTailoringSet, List.mem_toFinset, List.mem_map,
    List.mem_filter, Bool.and_eq_true, Finset.mem_inter, Finset.mem_insert,
    Finset.mem_singleton, List.contains_eq_any_beq, List.any_eq_true, beq_iff_eq,
    List.mem_cons, List.not_mem_nil, or_false]
  constructor
  · rintro ⟨d, ⟨hd, ⟨⟨y, hy, hyd⟩, ha⟩, hu⟩, hx⟩
    subst hx
    refine ⟨⟨d, ⟨hd, ha, hu⟩, rfl⟩, ?_⟩
    rcases hy with h | h | h
    · exact Or.inl (hyd.trans h)
    · exact Or.inr (Or.inl (hyd.trans h))
    · exact Or.inr (Or.inr (hyd.trans h))
  · rintro ⟨⟨d, ⟨hd, ha, hu⟩, hx⟩, hset⟩
    subst hx
    exact ⟨d, ⟨hd, ⟨⟨d.type, by tauto, rfl⟩, ha⟩, hu⟩, rfl⟩

/-- C5: for every PKS module with an active+used KS domain, the letter code is
determined by the set of active+used tailoring domains restricted to
KR/DH/ER via the fixed table (empty→A, KR→B, KR+DH→C, KR+DH+ER→D, anything
else→A); the module with active+used KR and DH and one METHYLMALONYL_COA AT
domain reads out as "C2". -/
theorem c5_letter_code_from_tailoring_set :
    (∀ m : BioModule, m.type = ModuleType.PKS →
      ((m.domains.filter fun d => d.active && d.used).any fun d => d.type == sdKS) = true →
      motif_name (tailoring_domains m) = letterOfSet (specTailoringSet m)) ∧
    primary_sequence [moduleC5] = Except.ok ["C2"] := by
  constructor
  · intro m _ _
    unfold motif_name letterOfSet
    rw [tailoring_domains_toFinset]
  · decide

/-- Witness for C5: the table applied at the concrete example module. -/
theorem c5_letter_code_from_tailoring_set_witness :
    motif_name (tailoring_domains moduleC5) = letterOfSet (specTailoringSet moduleC5) :=
  c5_letter_code_from_tailoring_set.1 moduleC5 rfl (by decide)

/-! ## C4: the WILDCARD substrate branch (code bug) -/

/-- C4 (code bug): the WILDCARD branch of the substrate dispatch is `pass`:
it never assigns the unit symbol, so a first classified PKS module with a
WILDCARD AT domain raises `NameError`, and a WILDCARD module following a
"C2"-emitting module re-emits the stale "C2" instead of its own bare letter
"A" as the claim states. -/
theorem c4_wildcard_branch_never_assigns_unit :
    primary_sequence [moduleWildcard] = Except.error ReadoutError.nameError ∧
    primary_sequence [moduleC5, moduleWildcard] = Except.ok ["C2", "C2"] ∧
    primary_sequence [moduleC5, moduleWildcard] ≠ Except.ok ["C2", "A"] :=
  ⟨by decide, by decide, by decide⟩

/-! ## C7: indexer FASTA records (one per recognition domain) -/

theorem foldl_guard_append {α β : Type} (p : α → Bool) (f : α → List β) :
    ∀ (l : List α) (acc : List β),
      l.foldl (fun a x => if p x then a ++ f x else a) acc
        = acc ++ l.flatMap fun x => if p x then f x else [] := by
  intro l
  induction l with
  | nil => intro acc; simp
  | cons x xs ih =>
    intro acc
    rw [List.foldl_cons, List.flatMap_cons]
    by_cases h : p x = true
    · rw [if_pos h, if_pos h, ih, List.append_assoc]
    · rw [if_neg h, if_neg h, ih, List.nil_append]

theorem indexRecords_eq_flat (stem : String) (cluster : ModularCluster) :
    indexRecords stem cluster = indexRecordsFlat stem cluster := by
  unfold indexRecords indexRecordsFlat
  generalize cluster.modules = ml
  suffices h : ∀ (acc : List String),
      ml.foldl
        (fun acc m =>
          if m.type == ModuleType.NRPS then
            m.domains.foldl
              (fun acc2 d =>
                if isRecognitionType d.type then acc2 ++ recordLines stem m d
                else acc2)
              acc
          else acc)
        acc
        = acc ++ ml.flatMap fun m =>
            if m.type == ModuleType.NRPS then
              m.domains.flatMap fun d =>
                if isRecognitionType d.type then recordLines stem m d else []
            else [] by
    simpa using h []
  induction ml with
  | nil => intro acc; simp
  | cons m rest ih =>
    intro acc
    rw [List.foldl_cons, List.flatMap_cons]
    by_cases h : (m.type == ModuleType.NRPS) = true
    · rw [if_pos h, if_pos h, foldl_guard_append, ih, List.append_assoc]
    · rw [if_neg h, if_neg h, ih, List.nil_append]

theorem flatMap_guard_length {α : Type} (p : α → Bool) (k : α → List String)
    (hk : ∀ x, (k x).length = 2) (l : List α) :
    (l.flatMap fun x => if p x then k x else []).length
      = 2 * (l.filter p).length := by
  induction l with
  | nil => simp
  | cons x xs ih =>
    rw [List.flatMap_cons, List.length_append, ih]
    by_cases h : p x = true
    · simp only [List.filter_cons_of_pos h, if_pos h, List.length_cons, hk x]
      omega
    · simp only [List.filter_cons_of_neg (by simpa using h), if_neg h,
        List.length_nil]
      omega

theorem indexRecordsFlat_length (stem : String) (cluster : ModularCluster) :
    (indexRecordsFlat stem cluster).length = 2 * recognitionDomainCount cluster := by
  unfold indexRecordsFlat recognitionDomainCount
  generalize cluster.modules = ml
  induction ml with
  | nil => simp
  | cons m rest ih =>
    rw [List.flatMap_cons, List.length_append, ih, List.map_cons, List.sum_cons]
    by_cases h : (m.type == ModuleType.NRPS) = true
    · rw [if_pos h, if_pos h,
        flatMap_guard_length (fun d => isRecognitionType d.type)
          (recordLines stem m) (fun d => rfl)]
      ring
    · rw [if_neg h, if_neg h]
      simp

/-- C7 (amended): for every successfully read cluster, the indexer writes
exactly one two-line FASTA record per recognition domain — of any recognition
kind, not only the adenylation kind — of each NRPS module, with header
`>{stem}|{module-id}|{domain-type}` and the domain's translation as the
sequence line; the output length is twice the recognition-domain count. -/
theorem c7_index_records_per_recognition_domain (stem : String)
    (cluster : ModularCluster) :
    indexRecords stem cluster = indexRecordsFlat stem cluster ∧
    (indexRecords stem cluster).length = 2 * recognitionDomainCount cluster :=
  ⟨indexRecords_eq_flat stem cluster,
    (indexRecords_eq_flat stem cluster) ▸ indexRecordsFlat_length stem cluster⟩

/-- C7 counterexample: for an NRPS module holding one acyltransferase
recognition domain, the script writes a record, while the claim — records
only for adenylation-kind domains — predicts no record at all. -/
theorem c7_counterexample_at_domain_record :
    indexRecords "s" clusterATonly = [">s|m1|AT", "SEQX"] ∧
    indexRecordsAdenylationOnly "s" clusterATonly = [] ∧
    indexRecords "s" clusterATonly ≠ indexRecordsAdenylationOnly "s" clusterATonly :=
  ⟨by decide, by decide, by decide⟩

/-! ## C6: indexer handling of the absent read result (code bug) -/

/-- C6 (code bug): when the read of a cluster file returns the absent
sentinel, the indexer of the repository does not skip silently:
tuple-unpacking `None` raises `TypeError`, which the generic handler catches,
logging an error and counting the file as failed. -/
theorem c6_absent_read_logged_and_counted_failed :
    processFile initIndexState "cluster42" none =
      { fasta := [], succeeded := 0, failed := 1, processed := 0,
        log := [LogMsg.error "Error processing cluster42"] } ∧
    (∀ st stem, (processFile st stem none).failed = st.failed + 1 ∧
      (processFile st stem none).log =
        st.log ++ [LogMsg.error ("Error processing " ++ stem)]) :=
  ⟨by decide, fun st stem => ⟨rfl, rfl⟩⟩

/-! ## C8: prediction table header and cell formatting -/

instance : IsTotal (String × ℚ) fun a b => a.1 ≤ b.1 :=
  ⟨fun a b => le_total a.1 b.1⟩

instance : IsTrans (String × ℚ) fun a b => a.1 ≤ b.1 :=
  ⟨fun _ _ _ hab hbc => le_trans hab hbc⟩

theorem writeStep_foldl_true (ps : List Prediction) :
    ∀ lines : List String,
      ps.foldl writeStep (true, lines) = (true, lines ++ ps.map rowLine) := by
  induction ps with
  | nil => intro lines; simp
  | cons p rest ih =>
    intro lines
    rw [List.foldl_cons]
    show rest.foldl writeStep (true, lines ++ [rowLine p]) = _
    rw [ih, List.map_cons, List.append_assoc]
    rfl

theorem writePredictionLines_characterization (batches : List (List Prediction)) :
    writePredictionLines batches =
      match batches.flatten with
      | [] => []
      | p :: ps => headerLine p :: (p :: ps).map rowLine := by
  unfold writePredictionLines
  rw [← List.foldl_flatten]
  rcases hf : batches.flatten with _ | ⟨p, ps⟩
  · rfl
  · rw [List.foldl_cons]
    show (ps.foldl writeStep (true, ([] ++ [headerLine p]) ++ [rowLine p])).2 = _
    rw [writeStep_foldl_true]
    simp

theorem headerLabels_sorted (ps : List (String × ℚ)) :
    List.Sorted (· ≤ ·) (headerLabels ps) := by
  have h := List.sorted_insertionSort (fun a b : String × ℚ => a.1 ≤ b.1) ps
  exact List.pairwise_map.mpr h

theorem headerLabels_perm_invariant (ps qs : List (String × ℚ))
    (h : ps.Perm qs) : headerLabels ps = headerLabels qs := by
  refine List.eq_of_perm_of_sorted ?_ (headerLabels_sorted ps) (headerLabels_sorted qs)
  unfold headerLabels sortByLabel
  exact ((List.perm_insertionSort _ ps).map _).trans
    ((h.map _).trans ((List.perm_insertionSort _ qs).map _).symm)

theorem digitChar_isDigit (n : Nat) : (digitChar n).isDigit = true := by
  have h : ∀ k, k < 10 → (Char.ofNat (48 + k)).isDigit = true := by decide
  exact h (n % 10) (Nat.mod_lt n (by norm_num))

theorem pad3_length (n : Nat) : (pad3 n).length = 3 := rfl

theorem pad3_digits (n : Nat) : (pad3 n).toList.all Char.isDigit = true := by
  show ([digitChar (n / 100), digitChar (n / 10), digitChar n]).all Char.isDigit = true
  simp [digitChar_isDigit]

theorem format3_shape (q : ℚ) : threeDecimalShape (format3 q) :=
  ⟨(if roundRat (q * 1000) < 0 then "-" else "")
      ++ toString ((roundRat (q * 1000)).natAbs / 1000),
    pad3 ((roundRat (q * 1000)).natAbs % 1000), rfl, pad3_length _, pad3_digits _⟩

/-- C8: the header row is written exactly once, from the first prediction
result only; the label columns are in ascending lexicographic order and do
not depend on the order in which the external predictor returned the
label/score pairs; every probability cell is formatted with exactly three
digits after the decimal point. -/
theorem c8_prediction_table_header_and_cells :
    (∀ batches : List (List Prediction),
      writePredictionLines batches =
        match batches.flatten with
        | [] => []
        | p :: ps => headerLine p :: (p :: ps).map rowLine) ∧
    (∀ p : Prediction, List.Sorted (· ≤ ·) (headerLabels p.preds)) ∧
    (∀ ps qs : List (String × ℚ), ps.Perm qs → headerLabels ps = headerLabels qs) ∧
    (∀ p : Prediction, ∀ c ∈ rowCells p, threeDecimalShape c) := by
  refine ⟨writePredictionLines_characterization,
    fun p => headerLabels_sorted p.preds, headerLabels_perm_invariant, ?_⟩
  intro p c hc
  obtain ⟨x, hx, hcx⟩ := List.mem_map.mp hc
  exact hcx ▸ format3_shape x.2

/-- A one-pair prediction used to instantiate C8. -/
def predExample : Prediction := { domain_name := "d1", preds := [("lysine", 1)] }

/-- Witness for C8: label order is permutation-invariant on a concrete
two-label swap, and a concrete cell has the three-decimal shape. -/
theorem c8_prediction_table_header_and_cells_witness :
    headerLabels [("b", (1 : ℚ)), ("a", (2 : ℚ))]
        = headerLabels [("a", (2 : ℚ)), ("b", (1 : ℚ))] ∧
    threeDecimalShape (format3 (1 : ℚ)) :=
  ⟨c8_prediction_table_header_and_cells.2.2.1 _ _ (List.Perm.swap _ _ _),
    c8_prediction_table_header_and_cells.2.2.2 predExample (format3 (1 : ℚ))
      (List.mem_singleton.mpr rfl)⟩

/-! ## C9: FASTA batch reader -/

theorem fb_rec_invariant (bs : Nat) (hbs : 0 < bs) :
    ∀ (lines : List String) (st : FBState) (rst : RecState),
      st.header = rst.header → st.seqParts = rst.seqParts →
      st.out.flatten ++ st.batch = rst.recs.flatMap pairFlat →
      (∀ b ∈ st.out, b.length = 2 * bs) →
      st.batch.length + 2 ≤ 2 * bs → st.batch.length % 2 = 0 →
      (lines.foldl (fbStep bs) st).header = (lines.foldl recStep rst).header ∧
      (lines.foldl (fbStep bs) st).seqParts = (lines.foldl recStep rst).seqParts ∧
      (lines.foldl (fbStep bs) st).out.flatten ++ (lines.foldl (fbStep bs) st).batch
        = (lines.foldl recStep rst).recs.flatMap pairFlat ∧
      (∀ b ∈ (lines.foldl (fbStep bs) st).out, b.length = 2 * bs) ∧
      (lines.foldl (fbStep bs) st).batch.length + 2 ≤ 2 * bs ∧
      (lines.foldl (fbStep bs) st).batch.length % 2 = 0 := by
  intro lines
  induction lines with
  | nil =>
    intro st rst h1 h2 h3 h4 h5 h6
    exact ⟨h1, h2, h3, h4, h5, h6⟩
  | cons line rest ih =>
    intro st rst h1 h2 h3 h4 h5 h6
    rw [List.foldl_cons, List.foldl_cons]
    by_cases he : pyStrip line = ""
    · have e1 : fbStep bs st line = st := by simp [fbStep, he]
      have e2 : recStep rst line = rst := by simp [recStep, he]
      rw [e1, e2]
      exact ih st rst h1 h2 h3 h4 h5 h6
    · by_cases hgt : pyStartsWithGt (pyStrip line) = true
      · rcases hh : st.header with _ | h
        · have hh' : rst.header = none := h1 ▸ hh
          have e1 : fbStep bs st line
              = { st with header := some (pyStrip line), seqParts := [] } := by
            simp [fbStep, he, hgt, hh]
          have e2 : recStep rst line
              = { rst with header := some (pyStrip line), seqParts := [] } := by
            simp [recStep, he, hgt, hh']
          rw [e1, e2]
          exact ih _ _ rfl rfl h3 h4 h5 h6
        · have hh' : rst.header = some h := h1 ▸ hh
          have e2 : recStep rst line
              = { recs := rst.recs ++ [(h, String.join rst.seqParts)],
                  header := some (pyStrip line), seqParts := [] } := by
            simp [recStep, he, hgt, hh']
          have hbatch : (st.batch ++ [h, String.join st.seqParts]).length
              = st.batch.length + 2 := by simp
          by_cases hyield :
              bs * 2 ≤ (st.batch ++ [h, String.join st.seqParts]).length
          · have hyield2 : bs * 2 ≤ st.batch.length + 2 := hbatch ▸ hyield
            have e1 : fbStep bs st line
                = { out := st.out ++ [st.batch ++ [h, String.join st.seqParts]],
                    batch := [], header := some (pyStrip line), seqParts := [] } := by
              simp [fbStep, he, hgt, hh, hyield2]
            rw [e1, e2]
            refine ih _ _ rfl rfl ?_ ?_ ?_ ?_
            · show (st.out ++ [st.batch ++ [h, String.join st.seqParts]]).flatten ++ []
                = (rst.recs ++ [(h, String.join rst.seqParts)]).flatMap pairFlat
              rw [List.flatMap_append, List.flatten_append, ← h2, ← h3]
              simp [pairFlat]
            · intro b hb
              rcases List.mem_append.mp hb with hb | hb
              · exact h4 b hb
              · rw [List.mem_singleton.mp hb, hbatch]
                rw [hbatch] at hyield
                omega
            · show List.length [] + 2 ≤ 2 * bs
              simp
              omega
            · show List.length [] % 2 = 0
              simp
          · have hyield2 : st.batch.length + 2 < bs * 2 := by
              rw [hbatch] at hyield
              omega
            have e1 : fbStep bs st line
                = { out := st.out, batch := st.batch ++ [h, String.join st.seqParts],
                    header := some (pyStrip line), seqParts := [] } := by
              simp [fbStep, he, hgt, hh, hyield2]
            rw [e1, e2]
            refine ih _ _ rfl rfl ?_ h4 ?_ ?_
            · show st.out.flatten ++ (st.batch ++ [h, String.join st.seqParts])
                = (rst.recs ++ [(h, String.join rst.seqParts)]).flatMap pairFlat
              rw [List.flatMap_append, ← h2, ← List.append_assoc, h3]
              simp [pairFlat]
            · show (st.batch ++ [h, String.join st.seqParts]).length + 2 ≤ 2 * bs
              rw [hbatch]
              rw [hbatch] at hyield
              omega
            · show (st.batch ++ [h, String.join st.seqParts]).length % 2 = 0
              rw [hbatch]
              omega
      · have e1 : fbStep bs st line
            = { st with seqParts := st.seqParts ++ [pyStrip line] } := by
          simp [fbStep, he, hgt]
        have e2 : recStep rst line
            = { rst with seqParts := rst.seqParts ++ [pyStrip line] } := by
          simp [recStep, he, hgt]
        rw [e1, e2]
        exact ih _ _ h1 (by simp [h2]) h3 h4 h5 h6

theorem fasta_batches_spec (bs : Nat) (hbs : 0 < bs) (lines : List String) :
    (fasta_batches bs lines).flatten = (fastaRecords lines).flatMap pairFlat ∧
    (∀ b ∈ fasta_batches bs lines, b.length ≤ 2 * bs ∧ b.length % 2 = 0) ∧
    (∀ b ∈ (fasta_batches bs lines).dropLast, b.length = 2 * bs) ∧
    (∀ b ∈ fasta_batches bs lines, b ≠ []) := by
  obtain ⟨h1, h2, h3, h4, h5, h6⟩ :=
    fb_rec_invariant bs hbs lines ⟨[], [], none, []⟩ ⟨[], none, []⟩ rfl rfl
      (by simp) (by simp)
      (by show ([] : List String).length + 2 ≤ 2 * bs; simp; omega)
      (by simp)
  simp only [fasta_batches, fastaRecords]
  set F := lines.foldl (fbStep bs) ⟨[], [], none, []⟩ with hF
  set R := lines.foldl recStep ⟨[], none, []⟩ with hR
  have key : F.out.flatten ++
      (match F.header with
        | some h => F.batch ++ [h, String.join F.seqParts]
        | none => F.batch)
      = (match R.header with
          | some h => R.recs ++ [(h, String.join R.seqParts)]
          | none => R.recs).flatMap pairFlat := by
    rcases hh : F.header with _ | h
    · rw [h1] at hh
      rw [hh]
      exact h3
    · rw [h1] at hh
      rw [hh]
      rw [List.flatMap_append, ← h2, ← List.append_assoc, h3]
      simp [pairFlat]
  have hfinal : (match F.header with
      | some h => F.batch ++ [h, String.join F.seqParts]
      | none => F.batch).length ≤ 2 * bs ∧
      (match F.header with
        | some h => F.batch ++ [h, String.join F.seqParts]
        | none => F.batch).length % 2 = 0 := by
    rcases hh : F.header with _ | h
    · change F.batch.length ≤ 2 * bs ∧ F.batch.length % 2 = 0
      exact ⟨by omega, h6⟩
    · change (F.batch ++ [h, String.join F.seqParts]).length ≤ 2 * bs ∧
        (F.batch ++ [h, String.join F.seqParts]).length % 2 = 0
      have hlen : (F.batch ++ [h, String.join F.seqParts]).length
          = F.batch.length + 2 := by simp
      rw [hlen]
      omega
  by_cases hfb : (match F.header with
      | some h => F.batch ++ [h, String.join F.seqParts]
      | none => F.batch) ≠ []
  · rw [if_pos hfb]
    refine ⟨?_, ?_, ?_, ?_⟩
    · rw [List.flatten_append]
      simpa using key
    · intro b hb
      rcases List.mem_append.mp hb with hb | hb
      · have := h4 b hb
        omega
      · rw [List.mem_singleton.mp hb]
        exact hfinal
    · intro b hb
      rw [List.dropLast_concat] at hb
      exact h4 b hb
    · intro b hb
      rcases List.mem_append.mp hb with hb | hb
      · intro hb0
        have := h4 b hb
        rw [hb0] at this
        simp at this
        omega
      · rw [List.mem_singleton.mp hb]
        exact hfb
  · rw [if_neg hfb]
    push_neg at hfb
    refine ⟨?_, ?_, ?_, ?_⟩
    · rw [← key, hfb]
      simp
    · intro b hb
      have := h4 b hb
      omega
    · intro b hb
      exact h4 b (List.dropLast_subset _ hb)
    · intro b hb
      intro hb0
      have := h4 b hb
      rw [hb0] at this
      simp at this
      omega

/-- C9: the FASTA reader partitions the file into batches of at most 1000
records each (a record occupies two list entries — header and sequence — so a
batch holds at most 2000 entries, an even number of them): the concatenation
of all batches lists every record of the file exactly once in file order,
every batch except possibly the last holds exactly 1000 records, and the
final partial batch is still emitted, so every returned batch is nonempty. -/
theorem c9_fasta_batches_partition (lines : List String) :
    (fasta_batches 1000 lines).flatten = (fastaRecords lines).flatMap pairFlat ∧
    (∀ b ∈ fasta_batches 1000 lines, b.length ≤ 2 * 1000 ∧ b.length % 2 = 0) ∧
    (∀ b ∈ (fasta_batches 1000 lines).dropLast, b.length = 2 * 1000) ∧
    (∀ b ∈ fasta_batches 1000 lines, b ≠ []) :=
  fasta_batches_spec 1000 (by norm_num) lines

/-- A small FASTA file: two records, the first with two sequence lines and a
blank line inside. -/
def fastaLinesEx : List String := [">h1", "AAA", "BBB", "", ">h2", "CCC"]

/-- Witness for C9 at the concrete six-line file. -/
theorem c9_fasta_batches_partition_witness :
    (fasta_batches 1000 fastaLinesEx).flatten
        = (fastaRecords fastaLinesEx).flatMap pairFlat ∧
    ((([">h1", "AAABBB", ">h2", "CCC"] : List String).length ≤ 2 * 1000 ∧
      ([">h1", "AAABBB", ">h2", "CCC"] : List String).length % 2 = 0) ∧
      [">h1", "AAABBB", ">h2", "CCC"] ≠ ([] : List String)) :=
  ⟨(c9_fasta_batches_partition fastaLinesEx).1,
    (c9_fasta_batches_partition fastaLinesEx).2.1
      [">h1", "AAABBB", ">h2", "CCC"] (by decide),
    (c9_fasta_batches_partition fastaLinesEx).2.2.2
      [">h1", "AAABBB", ">h2", "CCC"] (by decide)⟩
